import Mathlib

/-!
Verification of the descriptive-statistics engine of `computeStatistics.py`.

The Python program computes descriptive statistics (mean, median, mode,
population/sample variance and standard deviation) over a list of numbers
parsed from text files.  Numeric values are modelled as rationals (`ℚ`):
all properties at issue are order-theoretic or exact-arithmetic properties
of the algorithms, for which rational arithmetic models Python float
arithmetic faithfully (no claim here depends on rounding of binary floats).

File contents mirror the source functions:
`merge`, `merge_sort`, `compute_mean`, `compute_median`, `compute_mode`,
`compute_variance_population`, `compute_variance_sample`, `sqrt_newton`,
`format_number`, `prepare_mode_string`, `process_line`,
`parse_numbers_from_file`, `compute_all_statistics`, and the per-file loop
of `main`.
-/

namespace ComputeStatistics

/-- `merge(left, right)` from the source: repeatedly take the smaller head,
left preferred on ties, then append the remaining tail. -/
def merge : List ℚ → List ℚ → List ℚ
  | [], ys => ys
  | xs, [] => xs
  | x :: xs, y :: ys =>
    if x ≤ y then x :: merge xs (y :: ys)
    else y :: merge (x :: xs) ys
termination_by xs ys => xs.length + ys.length

/-- `merge_sort(arr)` from the source: lists of length ≤ 1 are returned
(as a copy), otherwise split at `n // 2`, sort the halves and merge. -/
def merge_sort (arr : List ℚ) : List ℚ :=
  if arr.length ≤ 1 then arr
  else
    let mid := arr.length / 2
    merge (merge_sort (arr.take mid)) (merge_sort (arr.drop mid))
termination_by arr.length
decreasing_by
  · simp only [List.length_take]
    omega
  · simp only [List.length_drop]
    omega

/-- The ASCII apostrophe character used to quote the offending token in the
diagnostic message. -/
def squote : String := String.singleton (Char.ofNat 39)

/-- The diagnostic line printed to stderr by `process_line` for a token that
fails to parse as a float, quoting the token between apostrophes:
`[ERROR] Invalid token at line {line_no}: ...`. -/
def invalid_token_msg (line_no : ℕ) (token : String) : String :=
  "[ERROR] Invalid token at line " ++ toString line_no ++ ": " ++
    squote ++ token ++ squote

/-- The loop body of `process_line`.  The line has already been split into
whitespace-delimited tokens; `parse` models Python `float(...)` (`some v`
on success, `none` when `ValueError` is raised).  The pair accumulates the
numbers list and the stderr lines emitted so far: a valid token appends its
value, an invalid token prints the diagnostic and appends `0.0`. -/
def process_token (parse : String → Option ℚ) (line_no : ℕ)
    (acc : List ℚ × List String) (token : String) : List ℚ × List String :=
  match parse token with
  | some value => (acc.1 ++ [value], acc.2)
  | none => (acc.1 ++ [0], acc.2 ++ [invalid_token_msg line_no token])

/-- `process_line(numbers, line_no, line)` from the source: fold the loop
body over the tokens, starting from the incoming numbers list and an empty
stderr trace. -/
def process_line (parse : String → Option ℚ) (numbers : List ℚ)
    (line_no : ℕ) (tokens : List String) : List ℚ × List String :=
  tokens.foldl (process_token parse line_no) (numbers, [])

/-- The line loop of `parse_numbers_from_file`: process each line with its
1-based line number (Python `enumerate(fh, start=1)`), threading the numbers
list and collecting the emitted stderr lines in order. -/
def parse_go (parse : String → Option ℚ) :
    ℕ → List ℚ → List (List String) → List ℚ × List String
  | _, numbers, [] => (numbers, [])
  | line_no, numbers, line :: rest =>
    let step := process_line parse numbers line_no line
    let next := parse_go parse (line_no + 1) step.1 rest
    (next.1, step.2 ++ next.2)

/-- The body of `parse_numbers_from_file` after the file was opened: the
contents of the file as a list of lines, each a list of tokens. -/
def parse_file_lines (parse : String → Option ℚ)
    (lines : List (List String)) : List ℚ × List String :=
  parse_go parse 1 [] lines

/-- A Python exception of the program: `SystemExit` (from `sys.exit`) or
`OSError`. -/
inductive PyErr where
  | systemExit (code : ℕ)
  | osError (msg : String)
deriving DecidableEq

/-- `parse_numbers_from_file(path)` from the source.  The file system is
modelled as `fs : path → Option contents`, `none` meaning the open raises
`FileNotFoundError`/`OSError`.  In that case the source prints a `[FATAL]`
message and calls `sys.exit(1)`, i.e. raises `SystemExit(1)`. -/
def parse_numbers_from_file (parse : String → Option ℚ)
    (fs : String → Option (List (List String))) (path : String) :
    Except PyErr (List ℚ) :=
  match fs path with
  | none => Except.error (PyErr.systemExit 1)
  | some lines => Except.ok (parse_file_lines parse lines).1

/-- `compute_mean(data)` from the source: `None` when the list is empty,
otherwise the loop-accumulated total divided by the count. -/
def compute_mean (data : List ℚ) : Option ℚ :=
  if data.length = 0 then none
  else some ((data.foldl (· + ·) 0) / (data.length : ℚ))

/-- `compute_median(sorted_data)` from the source: `None` on the empty list;
the element at index `n // 2` for odd `n`; the average of the elements at
indices `n // 2 - 1` and `n // 2` for even `n`.  (The `getD` default is
never reached: the indices are in bounds in both branches.) -/
def compute_median (sorted_data : List ℚ) : Option ℚ :=
  let n := sorted_data.length
  if n = 0 then none
  else
    let mid := n / 2
    if n % 2 = 1 then some (sorted_data.getD mid 0)
    else some ((sorted_data.getD (mid - 1) 0 + sorted_data.getD mid 0) / 2)

/-- One insertion into the key sequence of the frequency dictionary: a Python
dict keeps keys in first-insertion order, so a new key is appended. -/
def insert_key (keys : List ℚ) (x : ℚ) : List ℚ :=
  if x ∈ keys then keys else keys ++ [x]

/-- The key sequence of the `freq` dictionary built by `compute_mode`:
the distinct values of `data` in order of first occurrence.  The count of
key `k` in the dictionary is `data.count k`. -/
def dict_keys (data : List ℚ) : List ℚ := data.foldl insert_key []

/-- The `max_freq` loop of `compute_mode`: fold `max` over the frequency
of every dictionary key, starting from 0. -/
def max_freq (data : List ℚ) : ℕ :=
  (dict_keys data).foldl (fun m k => max m (data.count k)) 0

/-- `compute_mode(data)` from the source: empty list for empty data or when
the maximum frequency is ≤ 1; otherwise the keys whose frequency equals the
maximum, sorted with `merge_sort`. -/
def compute_mode (data : List ℚ) : List ℚ :=
  if data.length = 0 then []
  else if max_freq data ≤ 1 then []
  else merge_sort ((dict_keys data).filter (fun k => data.count k == max_freq data))

/-- `compute_variance_population(data, mean_value)` from the source. -/
def compute_variance_population (data : List ℚ) (mean_value : ℚ) : Option ℚ :=
  if data.length = 0 then none
  else some ((data.foldl (fun acc x => acc + (x - mean_value) * (x - mean_value)) 0)
    / (data.length : ℚ))

/-- `compute_variance_sample(data, mean_value)` from the source: `None`
when `n < 2`, otherwise the sum of squared deviations divided by `n - 1`. -/
def compute_variance_sample (data : List ℚ) (mean_value : ℚ) : Option ℚ :=
  if data.length < 2 then none
  else some ((data.foldl (fun acc x => acc + (x - mean_value) * (x - mean_value)) 0)
    / ((data.length - 1 : ℕ) : ℚ))

/-- The default `tol=1e-12` of `sqrt_newton`; no caller overrides it. -/
def newton_tol : ℚ := 1 / 10 ^ 12

/-- The default `max_iter=100` of `sqrt_newton`; no caller overrides it. -/
def newton_max_iter : ℕ := 100

/-- The `for _ in range(max_iter)` loop of `sqrt_newton`, with the fuel as
first recursion argument: each pass sets `x ← 0.5 * (x + value / x)`, breaks
when `x == 0` or (unless `prev == 0`, which `continue`s) when
`|x - prev| ≤ tol * max(1.0, |prev|)`, and returns `x` when fuel runs out. -/
def newton_iter (value tol : ℚ) : ℕ → ℚ → ℚ
  | 0, x => x
  | n + 1, x =>
    let prev := x
    let x2 := (1 / 2 : ℚ) * (x + value / x)
    if x2 = 0 then x2
    else if prev = 0 then newton_iter value tol n x2
    else if |x2 - prev| ≤ tol * max 1 |prev| then x2
    else newton_iter value tol n x2

/-- `sqrt_newton(value)` from the source (with its default `tol` and
`max_iter`): `None` for `None` or negative input, `0.0` for zero, otherwise
Newton iteration started at the value itself. -/
def sqrt_newton (value : Option ℚ) : Option ℚ :=
  match value with
  | none => none
  | some v =>
    if v < 0 then none
    else if v = 0 then some 0
    else some (newton_iter v newton_tol newton_max_iter v)

/-- Round to the nearest integer, ties to even: the rounding of Python
fixed-point float formatting, applied here to the exact rational value. -/
def round_half_even (q : ℚ) : ℤ :=
  let fl := ⌊q⌋
  if q - fl < 1 / 2 then fl
  else if 1 / 2 < q - fl then fl + 1
  else if fl % 2 = 0 then fl else fl + 1

/-- Left-pad a digit string with zeros to the given width. -/
def zero_pad (s : String) (width : ℕ) : String :=
  String.mk (List.replicate (width - s.length) (Char.ofNat 48)) ++ s

/-- `f"{x:.{decimals}f}"`: fixed-point rendering of `x` with exactly
`decimals` fractional digits. -/
def fixed_repr (v : ℚ) (decimals : ℕ) : String :=
  let scaled := round_half_even (v * (10 : ℚ) ^ decimals)
  let sign := if scaled < 0 then "-" else ""
  let a := scaled.natAbs
  let ip := a / 10 ^ decimals
  let fp := a % 10 ^ decimals
  if decimals = 0 then sign ++ toString ip
  else sign ++ toString ip ++ "." ++ zero_pad (toString fp) decimals

/-- A literal dot, for the trailing-dot check of `format_number`. -/
def dot_str : String := "."

/-- The `rstrip("0")` and trailing-dot removal of `format_number`. -/
def strip_fraction (s : String) : String :=
  let s2 := s.dropRightWhile (· = '0')
  if s2.endsWith dot_str then s2.dropRight 1 else s2

/-- `format_number(x, decimals)` from the source: `None` renders as the
`N/A` sentinel; an integer-valued number as `str(int(x))`; otherwise fixed
`decimals` digits with trailing zeros (and a bare trailing dot) stripped. -/
def format_number (x : Option ℚ) (decimals : ℕ) : String :=
  match x with
  | none => "N/A"
  | some v =>
    if v.den = 1 then toString v.num
    else strip_fraction (fixed_repr v decimals)

/-- The separator of Python `", ".join(parts)`. -/
def comma_sep : String := ", "

/-- `prepare_mode_string(count, modes)` from the source: `#N/A` when there
is no mode, a bare formatted value for a single mode, a bracketed
comma-separated list for several. -/
def prepare_mode_string (count : ℕ) (modes : List ℚ) : String :=
  if modes.length = 0 ∧ 0 < count then "#N/A"
  else if modes.length = 1 then format_number (some (modes.getD 0 0)) 6
  else if 1 < modes.length then
    "[" ++ String.intercalate comma_sep
      (modes.map (fun v => format_number (some v) 6)) ++ "]"
  else "#N/A"

/-- The record returned by `compute_all_statistics`. -/
structure StatsResult where
  count : ℕ
  mean : Option ℚ
  median : Option ℚ
  modes : List ℚ
  var_pop : Option ℚ
  std_pop : Option ℚ
  var_sam : Option ℚ
  std_sam : Option ℚ
deriving DecidableEq

/-- `compute_all_statistics(data)` from the source.  The source returns the
all-`None` record when `count == 0` and otherwise fills every field;
`compute_mean data` is `none` exactly when `count = 0`, so matching on it
realizes the same two branches while giving the mean the type `ℚ` that the
downstream variance computations consume. -/
def compute_all_statistics (data : List ℚ) : StatsResult :=
  match compute_mean data with
  | none =>
    { count := data.length, mean := none, median := none, modes := [],
      var_pop := none, std_pop := none, var_sam := none, std_sam := none }
  | some mean_value =>
    let sorted_data := merge_sort data
    let median_value := compute_median sorted_data
    let modes := compute_mode data
    let var_pop := compute_variance_population data mean_value
    let std_pop := if var_pop ≠ none then sqrt_newton var_pop else none
    let var_sam := compute_variance_sample data mean_value
    let std_sam := if var_sam ≠ none then sqrt_newton var_sam else none
    { count := data.length, mean := some mean_value, median := median_value,
      modes := modes, var_pop := var_pop, std_pop := std_pop,
      var_sam := var_sam, std_sam := std_sam }

/-- The per-file loop of `main`: for each path call
`parse_numbers_from_file` (inside `try/except OSError: continue`) and build
the report section of that file.  `sys.exit` raises `SystemExit`, not an
`OSError`, so only `osError` is caught by the loop; the combined report
exists only if the whole loop finishes. -/
def main_loop (parse : String → Option ℚ)
    (fs : String → Option (List (List String))) :
    List String → Except PyErr (List (String × StatsResult))
  | [] => Except.ok []
  | path :: rest =>
    match parse_numbers_from_file parse fs path with
    | Except.error (PyErr.osError _) => main_loop parse fs rest
    | Except.error e => Except.error e
    | Except.ok data =>
      match main_loop parse fs rest with
      | Except.ok sections =>
        Except.ok ((path, compute_all_statistics data) :: sections)
      | Except.error e => Except.error e

/-- Path of a file present in the example file system below. -/
def good_path : String := "good.txt"

/-- Path absent from the example file system below. -/
def missing_path : String := "missing.txt"

/-- The one token of the readable example file. -/
def one_tok : String := "1"

/-- Example file system: `good.txt` holds one line with one token, every
other path fails to open. -/
def fs_example (p : String) : Option (List (List String)) :=
  if p = good_path then some [[one_tok]] else none

/-- Example float parser: accepts exactly the token of the example file. -/
def parse_example (s : String) : Option ℚ :=
  if s = one_tok then some 1 else none

/-- A parser rejecting every token, for files in which no token is a valid
number. -/
def parse_nothing (_s : String) : Option ℚ := none

/-- An invalid token used in the examples. -/
def tok_foo : String := "foo"

/-- Another invalid token used in the examples. -/
def tok_bar : String := "bar"

end ComputeStatistics

namespace ComputeStatistics

theorem merge_perm (xs ys : List ℚ) : (merge xs ys).Perm (xs ++ ys) := by
  induction xs, ys using merge.induct with
  | case1 ys => simp [merge]
  | case2 xs => simp [merge]
  | case3 x xs y ys hle ih =>
    rw [merge, if_pos hle]
    exact (ih.cons x)
  | case4 x xs y ys hle ih =>
    rw [merge, if_neg hle]
    exact (ih.cons y).trans (List.perm_middle).symm

theorem mem_merge {z : ℚ} {xs ys : List ℚ} :
    z ∈ merge xs ys ↔ z ∈ xs ∨ z ∈ ys := by
  rw [(merge_perm xs ys).mem_iff, List.mem_append]

theorem merge_sorted {xs ys : List ℚ} (hxs : List.Sorted (· ≤ ·) xs)
    (hys : List.Sorted (· ≤ ·) ys) : List.Sorted (· ≤ ·) (merge xs ys) := by
  induction xs, ys using merge.induct with
  | case1 ys => simpa [merge] using hys
  | case2 xs => simpa [merge] using hxs
  | case3 x xs y ys hle ih =>
    rw [merge, if_pos hle]
    rw [List.sorted_cons] at hxs ⊢
    refine ⟨?_, ih hxs.2 hys⟩
    intro b hb
    rcases mem_merge.1 hb with h | h
    · exact hxs.1 b h
    · rcases List.mem_cons.1 h with rfl | h
      · exact hle
      · exact hle.trans ((List.sorted_cons.1 hys).1 b h)
  | case4 x xs y ys hle ih =>
    rw [merge, if_neg hle]
    rw [List.sorted_cons] at hys ⊢
    refine ⟨?_, ih hxs hys.2⟩
    intro b hb
    have hyx : y ≤ x := le_of_not_le hle
    rcases mem_merge.1 hb with h | h
    · rcases List.mem_cons.1 h with rfl | h
      · exact hyx
      · exact hyx.trans ((List.sorted_cons.1 hxs).1 b h)
    · exact hys.1 b h

theorem merge_sort_perm (arr : List ℚ) : (merge_sort arr).Perm arr := by
  induction arr using merge_sort.induct with
  | case1 l h =>
    rw [merge_sort, if_pos h]
  | case2 l h mid ih1 ih2 =>
    rw [merge_sort, if_neg h]
    refine (merge_perm _ _).trans ?_
    refine (ih1.append ih2).trans ?_
    rw [List.take_append_drop]

theorem merge_sort_sorted (arr : List ℚ) :
    List.Sorted (· ≤ ·) (merge_sort arr) := by
  induction arr using merge_sort.induct with
  | case1 l h =>
    rw [merge_sort, if_pos h]
    rcases l with _ | ⟨a, _ | ⟨b, t⟩⟩
    · exact List.sorted_nil
    · exact List.sorted_singleton a
    · simp at h
  | case2 l h mid ih1 ih2 =>
    rw [merge_sort, if_neg h]
    exact merge_sorted ih1 ih2

theorem foldl_process_token (parse : String → Option ℚ) (line_no : ℕ) :
    ∀ (tokens : List String) (ns : List ℚ) (es : List String),
      tokens.foldl (process_token parse line_no) (ns, es) =
        (ns ++ tokens.map (fun t => (parse t).getD 0),
         es ++ (tokens.filter (fun t => (parse t).isNone)).map
           (invalid_token_msg line_no)) := by
  intro tokens
  induction tokens with
  | nil => intro ns es; simp
  | cons t ts ih =>
    intro ns es
    simp only [List.foldl_cons, process_token]
    cases h : parse t with
    | some v => rw [ih]; simp [h]
    | none => rw [ih]; simp [h]

theorem process_line_eq (parse : String → Option ℚ) (numbers : List ℚ)
    (line_no : ℕ) (tokens : List String) :
    process_line parse numbers line_no tokens =
      (numbers ++ tokens.map (fun t => (parse t).getD 0),
       (tokens.filter (fun t => (parse t).isNone)).map
         (invalid_token_msg line_no)) := by
  rw [process_line, foldl_process_token]
  simp

theorem parse_go_eq (parse : String → Option ℚ) :
    ∀ (lines : List (List String)) (k : ℕ) (ns : List ℚ),
      parse_go parse k ns lines =
        (ns ++ lines.join.map (fun t => (parse t).getD 0),
         (List.enumFrom k lines).bind
           (fun p => (p.2.filter (fun t => (parse t).isNone)).map
             (invalid_token_msg p.1))) := by
  intro lines
  induction lines with
  | nil => intro k ns; simp [parse_go]
  | cons l ls ih =>
    intro k ns
    rw [parse_go]
    simp only [process_line_eq, ih]
    simp [List.append_assoc]

/-- C1: `merge_sort(x)` returns a permutation of `x` (in particular of the
same length) that is sorted in non-decreasing order.  The input list is not
modified: in this embedding `merge_sort` is a pure function on immutable
lists, mirroring that the Python code only reads `arr` (slices copy). -/
theorem merge_sort_spec (x : List ℚ) :
    (merge_sort x).Perm x ∧ (merge_sort x).length = x.length ∧
      List.Sorted (· ≤ ·) (merge_sort x) :=
  ⟨merge_sort_perm x, (merge_sort_perm x).length_eq, merge_sort_sorted x⟩

/-- C2: for every line, a token parsing as `some v` appends `v` and an
invalid token appends `0.0`, so the numbers list grows by exactly the token
count; the stderr channel receives exactly one diagnostic
`[ERROR] Invalid token at line {line_no}: ...` (token quoted) per invalid token, in
order; over a whole file (lines numbered from 1) the diagnostics carry each
1-based line number of each token and the final sample length is the total number
of tokens in the file. -/
theorem process_line_spec :
    (∀ (parse : String → Option ℚ) (numbers : List ℚ) (line_no : ℕ)
        (tokens : List String),
      process_line parse numbers line_no tokens =
        (numbers ++ tokens.map (fun t => (parse t).getD 0),
         (tokens.filter (fun t => (parse t).isNone)).map
           (invalid_token_msg line_no))) ∧
    (∀ (parse : String → Option ℚ) (lines : List (List String)),
      parse_file_lines parse lines =
        (lines.join.map (fun t => (parse t).getD 0),
         (List.enumFrom 1 lines).bind
           (fun p => (p.2.filter (fun t => (parse t).isNone)).map
             (invalid_token_msg p.1)))) ∧
    (∀ (parse : String → Option ℚ) (lines : List (List String)),
      (parse_file_lines parse lines).1.length = (lines.map List.length).sum) := by
  refine ⟨process_line_eq, fun parse lines => ?_, fun parse lines => ?_⟩
  · rw [parse_file_lines, parse_go_eq]
    simp
  · rw [parse_file_lines, parse_go_eq]
    simp [Function.comp_def, List.length_map]

/-- C7: `compute_median` of an ascending-sorted list returns `None` for the
empty list, the middle element for odd length, and the average of the two
middle elements for even length. -/
theorem compute_median_spec :
    compute_median [] = none ∧
    (∀ (s : List ℚ) (k : ℕ) (h : s.length = 2 * k + 1),
      compute_median s = some (s.get ⟨k, by omega⟩)) ∧
    (∀ (s : List ℚ) (k : ℕ) (h : s.length = 2 * k + 2),
      compute_median s = some ((s.get ⟨k, by omega⟩ + s.get ⟨k + 1, by omega⟩) / 2)) := by
  refine ⟨rfl, fun s k h => ?_, fun s k h => ?_⟩
  · rw [compute_median]
    have h0 : ¬s.length = 0 := by omega
    have hodd : s.length % 2 = 1 := by omega
    have hmid : s.length / 2 = k := by omega
    simp only [h0, if_false, hodd, if_true, hmid]
    rw [List.getD_eq_get s 0 (by omega)]
  · rw [compute_median]
    have h0 : ¬s.length = 0 := by omega
    have hodd : ¬s.length % 2 = 1 := by omega
    have hmid : s.length / 2 = k + 1 := by omega
    simp only [h0, if_false, hodd, hmid]
    rw [List.getD_eq_get s 0 (by omega : k + 1 - 1 < s.length),
      List.getD_eq_get s 0 (by omega : k + 1 < s.length)]
    simp

/-- C7 witness: the even case at `[1, 2, 3, 4]`, whose median is `2.5`. -/
theorem compute_median_spec_witness :
    compute_median [(1 : ℚ), 2, 3, 4] = some (5 / 2) := by
  rw [compute_median_spec.2.2 [(1 : ℚ), 2, 3, 4] 1 (by decide)]
  norm_num

theorem foldl_add_sq_dev (m : ℚ) :
    ∀ (l : List ℚ) (a : ℚ),
      l.foldl (fun acc x => acc + (x - m) * (x - m)) a =
        a + (l.map (fun x => (x - m) * (x - m))).sum := by
  intro l
  induction l with
  | nil => intro a; simp
  | cons x xs ih =>
    intro a
    simp only [List.foldl_cons, List.map_cons, List.sum_cons, ih]
    ring

/-- C8: `compute_variance_sample(data, m)` is `None` exactly when the
sample has fewer than two elements; otherwise (in particular when `m` is
the arithmetic mean) it is the sum of squared deviations from `m` divided
by `len(data) - 1`. -/
theorem compute_variance_sample_spec (data : List ℚ) (m : ℚ) :
    (compute_variance_sample data m = none ↔ data.length < 2) ∧
    (2 ≤ data.length → compute_mean data = some m →
      compute_variance_sample data m =
        some ((data.map (fun x => (x - m) * (x - m))).sum /
          ((data.length - 1 : ℕ) : ℚ))) := by
  constructor
  · rw [compute_variance_sample]
    split
    · rename_i h; simpa using h
    · rename_i h; simpa using h
  · intro h _
    rw [compute_variance_sample, if_neg (by omega), foldl_add_sq_dev]
    simp

/-- C8 witness: `[1, 2, 3, 4, 5]` with its mean `3` has sample variance
`5/2`, matching the example value `2.5` of the spec. -/
theorem compute_variance_sample_spec_witness :
    compute_variance_sample [(1 : ℚ), 2, 3, 4, 5] 3 = some (5 / 2) := by
  rw [(compute_variance_sample_spec [(1 : ℚ), 2, 3, 4, 5] 3).2 (by decide)
    (by norm_num [compute_mean])]
  norm_num

/-- C9: `sqrt_newton(0)` is `0` and `sqrt_newton` of any negative value is
the undefined marker `None`. -/
theorem sqrt_newton_spec :
    sqrt_newton (some 0) = some 0 ∧
    ∀ v : ℚ, v < 0 → sqrt_newton (some v) = none := by
  constructor
  · simp [sqrt_newton]
  · intro v hv
    simp [sqrt_newton, if_pos hv]

/-- C9 witness: the negative case at `-1`, together with the zero case. -/
theorem sqrt_newton_spec_witness :
    sqrt_newton (some (-1)) = none ∧ sqrt_newton (some 0) = some 0 :=
  ⟨sqrt_newton_spec.2 (-1) (by norm_num), sqrt_newton_spec.1⟩

theorem newton_iter_pos (value tol : ℚ) (hv : 0 < value) :
    ∀ (n : ℕ) (x : ℚ), 0 < x → 0 < newton_iter value tol n x := by
  intro n
  induction n with
  | zero => intro x hx; simpa [newton_iter] using hx
  | succ n ih =>
    intro x hx
    have hx2 : 0 < (1 / 2 : ℚ) * (x + value / x) :=
      mul_pos (by norm_num) (add_pos hx (div_pos hv hx))
    rw [newton_iter]
    split
    · exact hx2
    · split
      · exact ih _ hx2
      · split
        · exact hx2
        · exact ih _ hx2

/-- C10: for a positive input every Newton iterate stays strictly positive
(the update `0.5 * (x + value / x)` of a positive `x` is positive), so the
division `value / x` never has a zero divisor and `sqrt_newton` returns a
(positive) result. -/
theorem sqrt_newton_pos_total (value : ℚ) (hv : 0 < value) :
    (∀ (tol : ℚ) (n : ℕ) (x : ℚ), 0 < x → 0 < newton_iter value tol n x) ∧
    ∃ r : ℚ, sqrt_newton (some value) = some r ∧ 0 < r := by
  refine ⟨fun tol n x hx => newton_iter_pos value tol hv n x hx, ?_⟩
  refine ⟨newton_iter value newton_tol newton_max_iter value, ?_,
    newton_iter_pos value newton_tol hv newton_max_iter value hv⟩
  rw [sqrt_newton]
  rw [if_neg (not_lt.2 hv.le), if_neg hv.ne.symm]

/-- C4: a per-file read failure is NOT merely per-file: `parse_numbers_from_file`
catches the read error itself and calls `sys.exit(1)`, so a batch whose
first file is missing terminates with `SystemExit(1)` before the remaining
readable file (`good.txt`, present in the file system) is processed — the
`except OSError: continue` in `main` never fires because `SystemExit` is
not an `OSError`. -/
theorem main_loop_aborts_batch :
    main_loop parse_example fs_example [missing_path, good_path] =
      Except.error (PyErr.systemExit 1) ∧
    fs_example good_path = some [[one_tok]] := by
  constructor
  · rfl
  · rfl

theorem parse_file_lines_all_empty (parse : String → Option ℚ)
    (lines : List (List String)) (h : ∀ l ∈ lines, l = []) :
    (parse_file_lines parse lines).1 = [] := by
  rw [parse_file_lines, parse_go_eq]
  simp only [List.nil_append]
  rw [List.map_eq_nil, List.join_eq_nil_iff]
  exact h

/-- C5 (amended): a successfully-read file with no tokens at all yields
`count = 0` and every derived statistic undefined (`None`, empty mode
list). -/
theorem all_stats_undefined_of_no_tokens (parse : String → Option ℚ)
    (lines : List (List String)) (h : ∀ l ∈ lines, l = []) :
    compute_all_statistics (parse_file_lines parse lines).1 =
      { count := 0, mean := none, median := none, modes := [],
        var_pop := none, std_pop := none, var_sam := none, std_sam := none } := by
  rw [parse_file_lines_all_empty parse lines h]
  rfl

/-- C5 witness: a file of two blank lines (no tokens) gives the all-`None`
record. -/
theorem all_stats_undefined_of_no_tokens_witness :
    compute_all_statistics (parse_file_lines parse_nothing [[], []]).1 =
      { count := 0, mean := none, median := none, modes := [],
        var_pop := none, std_pop := none, var_sam := none, std_sam := none } :=
  all_stats_undefined_of_no_tokens parse_nothing [[], []] (by simp)

/-- C5 counterexample: a file in which zero tokens parse as valid numbers
but which does contain tokens (`foo bar`) yields `count = 2` (the invalid
tokens are substituted with `0.0` and counted) and a DEFINED mean `0`,
contradicting the claim that every such file reports `count = 0` with all
derived statistics undefined. -/
theorem stats_defined_for_invalid_tokens :
    (compute_all_statistics
      (parse_file_lines parse_nothing [[tok_foo, tok_bar]]).1).count = 2 ∧
    (compute_all_statistics
      (parse_file_lines parse_nothing [[tok_foo, tok_bar]]).1).mean = some 0 := by
  constructor
  · rfl
  · have hdata : (parse_file_lines parse_nothing [[tok_foo, tok_bar]]).1 = [0, 0] := rfl
    have hmean : compute_mean [(0 : ℚ), 0] = some 0 := by
      rw [compute_mean]
      norm_num
    rw [hdata]
    simp only [compute_all_statistics, hmean]

/-- C6 counterexample: the no-mode marker `#N/A` differs from the `N/A`
marker used for undefined statistics, so the no-mode case does not render
as "that same" marker. -/
theorem mode_marker_differs :
    prepare_mode_string 1 [] = "#N/A" ∧ format_number none 6 = "N/A" ∧
    prepare_mode_string 1 [] ≠ format_number none 6 := by
  refine ⟨rfl, rfl, ?_⟩
  decide

/-- C6 (amended): every undefined statistic renders as the sentinel `N/A`;
the no-mode case renders as the distinct sentinel `#N/A`; a single mode
renders as the bare formatted value and several modes as a bracketed
comma-separated list of the formatted values. -/
theorem render_markers_spec :
    (∀ d : ℕ, format_number none d = "N/A") ∧
    (∀ c : ℕ, prepare_mode_string c [] = "#N/A") ∧
    (∀ (c : ℕ) (m : ℚ), prepare_mode_string c [m] = format_number (some m) 6) ∧
    (∀ (c : ℕ) (a b : ℚ) (rest : List ℚ),
      prepare_mode_string c (a :: b :: rest) =
        "[" ++ String.intercalate comma_sep
          ((a :: b :: rest).map (fun v => format_number (some v) 6)) ++ "]") := by
  refine ⟨fun d => rfl, fun c => ?_, fun c m => ?_, fun c a b rest => ?_⟩
  · rcases Nat.eq_zero_or_pos c with hc | hc
    · subst hc
      rfl
    · rw [prepare_mode_string, if_pos ⟨rfl, hc⟩]
  · rw [prepare_mode_string]
    norm_num
  · rw [prepare_mode_string]
    have h2 : (a :: b :: rest).length = rest.length + 2 := by simp
    rw [if_neg (by simp), if_neg (by simp), if_pos (by simp)]

theorem foldl_insert_key_mem :
    ∀ (l init : List ℚ) (x : ℚ),
      x ∈ l.foldl insert_key init ↔ x ∈ init ∨ x ∈ l := by
  intro l
  induction l with
  | nil => intro init x; simp
  | cons a t ih =>
    intro init x
    simp only [List.foldl_cons]
    rw [ih]
    unfold insert_key
    split
    · rename_i ha
      constructor
      · rintro (hx | hx)
        · exact Or.inl hx
        · exact Or.inr (List.mem_cons_of_mem a hx)
      · rintro (hx | hx)
        · exact Or.inl hx
        · rcases List.mem_cons.1 hx with rfl | hx
          · exact Or.inl ha
          · exact Or.inr hx
    · simp only [List.mem_append, List.mem_singleton, List.mem_cons]
      tauto

theorem foldl_insert_key_nodup :
    ∀ (l init : List ℚ), init.Nodup → (l.foldl insert_key init).Nodup := by
  intro l
  induction l with
  | nil => intro init h; simpa using h
  | cons a t ih =>
    intro init h
    simp only [List.foldl_cons]
    refine ih _ ?_
    unfold insert_key
    split
    · exact h
    · rename_i ha
      rw [List.nodup_append]
      refine ⟨h, List.nodup_singleton a, fun x hx hxa => ha ?_⟩
      rw [List.mem_singleton] at hxa
      rwa [hxa] at hx

theorem mem_dict_keys (data : List ℚ) (x : ℚ) :
    x ∈ dict_keys data ↔ x ∈ data := by
  rw [dict_keys, foldl_insert_key_mem]
  simp

theorem dict_keys_nodup (data : List ℚ) : (dict_keys data).Nodup :=
  foldl_insert_key_nodup data [] List.nodup_nil

theorem foldl_max_init_le (data : List ℚ) :
    ∀ (keys : List ℚ) (init : ℕ),
      init ≤ keys.foldl (fun m k => max m (data.count k)) init := by
  intro keys
  induction keys with
  | nil => intro init; exact le_refl init
  | cons a t ih =>
    intro init
    simp only [List.foldl_cons]
    exact le_trans (le_max_left _ _) (ih _)

theorem foldl_max_count_le (data : List ℚ) :
    ∀ (keys : List ℚ) (init : ℕ) (k : ℚ), k ∈ keys →
      data.count k ≤ keys.foldl (fun m kk => max m (data.count kk)) init := by
  intro keys
  induction keys with
  | nil => intro init k hk; simp at hk
  | cons a t ih =>
    intro init k hk
    simp only [List.foldl_cons]
    rcases List.mem_cons.1 hk with rfl | hk
    · exact le_trans (le_max_right _ _) (foldl_max_init_le data t _)
    · exact ih _ k hk

theorem foldl_max_eq_or (data : List ℚ) :
    ∀ (keys : List ℚ) (init : ℕ),
      keys.foldl (fun m k => max m (data.count k)) init = init ∨
      ∃ k ∈ keys, keys.foldl (fun m kk => max m (data.count kk)) init = data.count k := by
  intro keys
  induction keys with
  | nil => intro init; exact Or.inl rfl
  | cons a t ih =>
    intro init
    simp only [List.foldl_cons]
    rcases ih (max init (data.count a)) with h | ⟨k, hk, h⟩
    · rcases le_total (data.count a) init with hle | hle
      · left
        rw [h]
        omega
      · right
        refine ⟨a, List.mem_cons_self a t, ?_⟩
        rw [h]
        omega
    · exact Or.inr ⟨k, List.mem_cons_of_mem a hk, h⟩

theorem count_le_max_freq (data : List ℚ) (x : ℚ) (hx : x ∈ data) :
    data.count x ≤ max_freq data :=
  foldl_max_count_le data (dict_keys data) 0 x ((mem_dict_keys data x).2 hx)

theorem max_freq_attained (data : List ℚ) :
    max_freq data = 0 ∨ ∃ k ∈ data, max_freq data = data.count k := by
  rcases foldl_max_eq_or data (dict_keys data) 0 with h | ⟨k, hk, h⟩
  · exact Or.inl h
  · exact Or.inr ⟨k, (mem_dict_keys data k).1 hk, h⟩

theorem count_le_one_of_max_freq_le_one (data : List ℚ)
    (h : max_freq data ≤ 1) : ∀ x : ℚ, data.count x ≤ 1 := by
  intro x
  by_cases hx : x ∈ data
  · exact le_trans (count_le_max_freq data x hx) h
  · rw [List.count_eq_zero.2 hx]
    omega

/-- C3: `compute_mode(data)` is empty exactly when no value occurs more
than once (in particular for empty data); otherwise it consists precisely
of the distinct values whose occurrence count equals the maximum frequency,
sorted ascending, excluding every value of lower frequency. -/
theorem compute_mode_spec (data : List ℚ) :
    (compute_mode data = [] ↔ ∀ x : ℚ, data.count x ≤ 1) ∧
    List.Sorted (· ≤ ·) (compute_mode data) ∧
    (compute_mode data).Nodup ∧
    (∀ x ∈ data, data.count x ≤ max_freq data) ∧
    (∀ x : ℚ, x ∈ compute_mode data ↔
      2 ≤ max_freq data ∧ x ∈ data ∧ data.count x = max_freq data) := by
  refine ⟨?_, ?_, ?_, fun x hx => count_le_max_freq data x hx, ?_⟩
  · rw [compute_mode]
    split
    · rename_i h0
      have hdata : data = [] := List.length_eq_zero.1 h0
      subst hdata
      simp
    · split
      · rename_i h0 h1
        simp only [true_iff]
        exact count_le_one_of_max_freq_le_one data h1
      · rename_i h0 h1
        have h2 : 2 ≤ max_freq data := by omega
        rcases max_freq_attained data with hmf | ⟨k, hk, hmf⟩
        · omega
        · have hkf : k ∈ (dict_keys data).filter (fun kk => data.count kk == max_freq data) :=
            List.mem_filter.2 ⟨(mem_dict_keys data k).2 hk, by simp [hmf]⟩
          have hne : merge_sort ((dict_keys data).filter
              (fun kk => data.count kk == max_freq data)) ≠ [] := by
            intro hnil
            have hmem := ((merge_sort_perm ((dict_keys data).filter
              (fun kk => data.count kk == max_freq data))).mem_iff).2 hkf
            rw [hnil] at hmem
            simp at hmem
          constructor
          · intro hnil
            exact absurd hnil hne
          · intro hall
            have := hall k
            omega
  · rw [compute_mode]
    split
    · exact List.sorted_nil
    · split
      · exact List.sorted_nil
      · exact merge_sort_sorted _
  · rw [compute_mode]
    split
    · exact List.nodup_nil
    · split
      · exact List.nodup_nil
      · exact ((merge_sort_perm _).nodup_iff).2 ((dict_keys_nodup data).filter _)
  · intro x
    rw [compute_mode]
    split
    · rename_i h0
      have hdata : data = [] := List.length_eq_zero.1 h0
      subst hdata
      simp [max_freq, dict_keys]
    · split
      · rename_i h0 h1
        simp only [List.not_mem_nil, false_iff]
        rintro ⟨h2, -, -⟩
        omega
      · rename_i h0 h1
        rw [(merge_sort_perm _).mem_iff, List.mem_filter, mem_dict_keys]
        constructor
        · rintro ⟨hx, hc⟩
          exact ⟨by omega, hx, by simpa using hc⟩
        · rintro ⟨-, hx, hc⟩
          exact ⟨hx, by simpa using hc⟩

/-- C3 witness: in `[1, 1, 2]` the value `1` attains the maximum frequency
2 and is a member of the computed mode list. -/
theorem compute_mode_spec_witness :
    (1 : ℚ) ∈ compute_mode [(1 : ℚ), 1, 2] ∧
    List.count (1 : ℚ) [(1 : ℚ), 1, 2] ≤ max_freq [(1 : ℚ), 1, 2] :=
  ⟨((compute_mode_spec [(1 : ℚ), 1, 2]).2.2.2.2 1).2 (by decide),
   (compute_mode_spec [(1 : ℚ), 1, 2]).2.2.2.1 1 (by decide)⟩

/-- C10 witness: at input `2` the iterates from `1` are positive and
`sqrt_newton` returns a positive result. -/
theorem sqrt_newton_pos_total_witness :
    (0 : ℚ) < newton_iter 2 newton_tol 5 1 ∧
    ∃ r : ℚ, sqrt_newton (some 2) = some r ∧ 0 < r :=
  ⟨(sqrt_newton_pos_total 2 (by norm_num)).1 newton_tol 5 1 (by norm_num),
   (sqrt_newton_pos_total 2 (by norm_num)).2⟩

end ComputeStatistics
